import Mathlib

/-!
Verification of the secure credential vault of `project-lens-tauri`
(`src-tauri/src/crypto/service.rs`, `src-tauri/src/auth/master_password.rs`,
`src-tauri/src/storage/secure_repository.rs`).

Modelling conventions:
* Byte strings are `List Nat`.
* The external AEAD primitive (ring's AES-256-GCM) together with the KDF
  (PBKDF2-HMAC-SHA256) is modelled as an abstract `AeadScheme` carrying the
  library contract the code relies on: sealing appends a 16-byte tag, and
  opening inverts sealing under the same key and nonce.
* Randomness (the salt and nonce drawn from `SystemRandom`) is passed to
  `encrypt` as explicit arguments; lock acquisition and clock reads, which
  the code treats as infallible in the success path, are modelled as
  deterministic, with the current UNIX time `now` an explicit argument.
* Error message payloads (Japanese strings) are dropped from the error
  enums; only the variants matter.
-/

deriving instance DecidableEq for Except

namespace ProjectLens

/-! ## Crypto layer (`crypto/service.rs`) -/

/-- `CryptoError` from `crypto/service.rs`. -/
inductive CryptoError where
  | RandomGenerationFailed
  | KeyDerivationFailed
  | EncryptionFailed
  | DecryptionFailed
  | InvalidDataFormat
deriving DecidableEq

/-- Abstract model of the external cryptographic primitives used by
`CryptoService`: `derive_key` (PBKDF2-HMAC-SHA256, 100,000 iterations),
`seal_in_place_append_tag` and `open_in_place` (ring AES-256-GCM).
The two laws are the documented contract of the ring AEAD API:
sealing appends a 16-byte authentication tag, and opening with the same
key and nonce recovers the plaintext. -/
structure AeadScheme where
  deriveKey : String → List Nat → List Nat
  aeadSeal : List Nat → List Nat → List Nat → List Nat
  aeadOpn : List Nat → List Nat → List Nat → Option (List Nat)
  aeadSeal_length : ∀ k n d, (aeadSeal k n d).length = d.length + 16
  aeadOpn_seal : ∀ k n d, aeadOpn k n (aeadSeal k n d) = some d

/-- `CryptoService::encrypt`: generate salt (32 bytes) and nonce (12 bytes)
— here passed in as the values the RNG produced — derive the key from the
password and salt, seal the plaintext, and return `salt ‖ nonce ‖ ciphertext‖tag`. -/
def CryptoService.encrypt (A : AeadScheme) (plaintext : List Nat) (password : String)
    (salt nonce : List Nat) : List Nat :=
  let key := A.deriveKey password salt
  let data := A.aeadSeal key nonce plaintext
  salt ++ nonce ++ data

/-- `CryptoService::decrypt`: reject inputs shorter than 60 bytes with
`InvalidDataFormat`; otherwise split off `salt = [0..32]`, `nonce = [32..44]`,
`encrypted_data = [44..]`, re-derive the key and attempt authenticated
opening; an opening failure is `DecryptionFailed`. -/
def CryptoService.decrypt (A : AeadScheme) (ciphertext : List Nat) (password : String) :
    Except CryptoError (List Nat) :=
  if ciphertext.length < 60 then .error .InvalidDataFormat
  else
    let salt := ciphertext.take 32
    let nonce_bytes := (ciphertext.drop 32).take 12
    let encrypted_data := ciphertext.drop 44
    let key := A.deriveKey password salt
    match A.aeadOpn key nonce_bytes encrypted_data with
    | some plaintext => .ok plaintext
    | none => .error .DecryptionFailed

/-- Bytes of a Rust `&str` (`as_bytes`); the model identifies bytes with
character codes, which agrees with UTF-8 on ASCII data. -/
def strBytes (s : String) : List Nat := s.toList.map Char.toNat

/-- A concrete instance of `AeadScheme` used to evaluate the theorems on
closed inputs: the key is the password bytes padded with the salt, the tag
is the first 16 bytes of `key ++ nonce` (padded), sealing appends the tag
and opening checks it. It satisfies the ring contract laws. -/
def toyKdf (password : String) (salt : List Nat) : List Nat :=
  (strBytes password ++ salt ++ List.replicate 32 0).take 32

def toyTag (key nonce : List Nat) : List Nat :=
  (key ++ nonce ++ List.replicate 16 0).take 16

def toySeal (key nonce d : List Nat) : List Nat :=
  d ++ toyTag key nonce

def toyOpn (key nonce c : List Nat) : Option (List Nat) :=
  if 16 ≤ c.length ∧ c.drop (c.length - 16) = toyTag key nonce
  then some (c.take (c.length - 16)) else none

lemma toyTag_length (key nonce : List Nat) : (toyTag key nonce).length = 16 := by
  simp [toyTag]
  omega

def toyAead : AeadScheme where
  deriveKey := toyKdf
  aeadSeal := toySeal
  aeadOpn := toyOpn
  aeadSeal_length := by
    intro k n d
    simp [toySeal, toyTag_length]
  aeadOpn_seal := by
    intro k n d
    have hlen : (toySeal k n d).length = d.length + 16 := by
      simp [toySeal, toyTag_length]
    simp only [toyOpn, hlen, Nat.add_sub_cancel]
    rw [if_pos]
    · have h : (toySeal k n d).take d.length = d := List.take_left d (toyTag k n)
      simp [h]
    · exact ⟨by omega, List.drop_left d (toyTag k n)⟩

/-! ### Blob slicing lemmas -/

lemma blob_take_32 (salt nonce data : List Nat) (hs : salt.length = 32) :
    (salt ++ nonce ++ data).take 32 = salt := by
  rw [List.append_assoc]
  exact List.take_left' hs

lemma blob_nonce_slice (salt nonce data : List Nat) (hs : salt.length = 32)
    (hn : nonce.length = 12) :
    ((salt ++ nonce ++ data).drop 32).take 12 = nonce := by
  rw [List.append_assoc, List.drop_left' hs, List.take_left' hn]

lemma blob_drop_44 (salt nonce data : List Nat) (hs : salt.length = 32)
    (hn : nonce.length = 12) :
    (salt ++ nonce ++ data).drop 44 = data :=
  List.drop_left' (by simp [hs, hn])

/-- C1: for every plaintext byte string `x` (including the empty string) and
every password `p`, decrypting `encrypt(x, p)` with the same password returns
exactly `x` — for any AEAD/KDF primitive satisfying the ring contract and any
salt and nonce of the sizes the RNG produces (32 and 12 bytes). -/
theorem crypto_encrypt_decrypt_roundtrip (A : AeadScheme) (x : List Nat) (p : String)
    (salt nonce : List Nat) (hs : salt.length = 32) (hn : nonce.length = 12) :
    CryptoService.decrypt A (CryptoService.encrypt A x p salt nonce) p = .ok x := by
  simp only [CryptoService.encrypt, CryptoService.decrypt]
  have hdata := A.aeadSeal_length (A.deriveKey p salt) nonce x
  have hlen : (salt ++ nonce ++ A.aeadSeal (A.deriveKey p salt) nonce x).length
      = x.length + 60 := by
    simp [hs, hn, hdata]
    omega
  rw [if_neg (by omega)]
  simp only [blob_take_32 _ _ _ hs, blob_nonce_slice _ _ _ hs hn, blob_drop_44 _ _ _ hs hn,
    A.aeadOpn_seal]

/-- Witness for C1 at a concrete input. -/
theorem crypto_encrypt_decrypt_roundtrip_witness :
    (List.replicate 32 (0 : Nat)).length = 32 ∧
    (List.replicate 12 (1 : Nat)).length = 12 ∧
    CryptoService.decrypt toyAead
      (CryptoService.encrypt toyAead [5, 6, 7] "pw" (List.replicate 32 0) (List.replicate 12 1))
      "pw" = .ok [5, 6, 7] :=
  ⟨by decide, by decide,
    crypto_encrypt_decrypt_roundtrip toyAead [5, 6, 7] "pw" _ _ (by decide) (by decide)⟩

/-- C4: the salt and the nonce are embedded verbatim at fixed offsets of the
blob, so two encryptions of the same plaintext and password whose random
draws (salt, nonce) differ produce byte-for-byte different blobs. -/
theorem crypto_encrypt_fresh_randomness_distinct (A : AeadScheme) (x : List Nat) (p : String)
    (s₁ n₁ s₂ n₂ : List Nat) (hs₁ : s₁.length = 32) (hn₁ : n₁.length = 12)
    (hs₂ : s₂.length = 32) (hn₂ : n₂.length = 12)
    (hdiff : s₁ ≠ s₂ ∨ n₁ ≠ n₂) :
    CryptoService.encrypt A x p s₁ n₁ ≠ CryptoService.encrypt A x p s₂ n₂ := by
  intro heq
  unfold CryptoService.encrypt at heq
  have hsalt : s₁ = s₂ := by
    have h := congrArg (List.take 32) heq
    rwa [blob_take_32 _ _ _ hs₁, blob_take_32 _ _ _ hs₂] at h
  have hnonce : n₁ = n₂ := by
    have h := congrArg (fun l => (List.drop 32 l).take 12) heq
    simp only at h
    rwa [blob_nonce_slice _ _ _ hs₁ hn₁, blob_nonce_slice _ _ _ hs₂ hn₂] at h
  rcases hdiff with h | h
  · exact h hsalt
  · exact h hnonce

/-- Witness for C4 at a concrete input. -/
theorem crypto_encrypt_fresh_randomness_distinct_witness :
    (List.replicate 32 (0 : Nat) ≠ List.replicate 32 (9 : Nat) ∨
      List.replicate 12 (1 : Nat) ≠ List.replicate 12 (1 : Nat)) ∧
    CryptoService.encrypt toyAead [5] "pw" (List.replicate 32 0) (List.replicate 12 1) ≠
      CryptoService.encrypt toyAead [5] "pw" (List.replicate 32 9) (List.replicate 12 1) :=
  ⟨by decide,
    crypto_encrypt_fresh_randomness_distinct toyAead [5] "pw" _ _ _ _
      (by decide) (by decide) (by decide) (by decide) (by decide)⟩

/-- C5: every input shorter than 60 bytes (including the empty input) is
rejected by `decrypt` with `InvalidDataFormat`, never `DecryptionFailed`. -/
theorem crypto_decrypt_short_invalid_format (A : AeadScheme) (blob : List Nat) (p : String)
    (h : blob.length < 60) :
    CryptoService.decrypt A blob p = .error .InvalidDataFormat := by
  unfold CryptoService.decrypt
  rw [if_pos h]

/-- Witness for C5 on the empty blob. -/
theorem crypto_decrypt_short_invalid_format_witness :
    ([] : List Nat).length < 60 ∧
    CryptoService.decrypt toyAead [] "pw" = .error .InvalidDataFormat :=
  ⟨by decide, crypto_decrypt_short_invalid_format toyAead [] "pw" (by decide)⟩

/-! ## Session authority (`auth/master_password.rs`) -/

/-- `MasterPasswordError` from `auth/master_password.rs`
(message payloads dropped). -/
inductive MasterPasswordError where
  | PasswordNotSet
  | InvalidPassword
  | SessionInvalid
  | WeakPassword
  | CryptoFailure
  | SystemError
deriving DecidableEq

/-- `SessionStatus` from `auth/master_password.rs`. -/
inductive SessionStatus where
  | NotAuthenticated
  | Authenticated (expires_at : Nat)
  | Expired
deriving DecidableEq

/-- `PasswordStrength` from `auth/master_password.rs`. -/
inductive PasswordStrength where
  | Weak
  | Fair
  | Strong
  | VeryStrong
deriving DecidableEq

/-- Numeric rank of a strength tier, used to state monotonicity. -/
def PasswordStrength.rank : PasswordStrength → Nat
  | .Weak => 0
  | .Fair => 1
  | .Strong => 2
  | .VeryStrong => 3

/-- `criteria_met` in `check_password_strength`: the count of the four
character-class flags that hold. -/
def criteriaCount (hl hu hd hs : Bool) : Nat :=
  ([hl, hu, hd, hs].filter (fun x => x = true)).length

/-- The `match (length, criteria_met)` at the end of
`check_password_strength`, arm for arm. -/
def strengthMatch (length criteria : Nat) : PasswordStrength :=
  if 12 ≤ length ∧ criteria = 4 then .VeryStrong
  else if (10 ≤ length ∧ criteria = 4) ∨ (12 ≤ length ∧ criteria = 3) then .Strong
  else if (8 ≤ length ∧ criteria = 4) ∨ (10 ≤ length ∧ criteria = 3) then .Strong
  else if 8 ≤ length ∧ criteria = 3 then .Fair
  else .Weak

/-- The body of `check_password_strength` as a function of the length and
the four class flags: shorter than 8, or missing lowercase, uppercase or a
digit, is `Weak`; otherwise the `(length, criteria_met)` match decides. -/
def strengthCore (length : Nat) (hl hu hd hs : Bool) : PasswordStrength :=
  if length < 8 || !hl || !hu || !hd then .Weak
  else strengthMatch length (criteriaCount hl hu hd hs)

/-- `MasterPasswordManager::check_password_strength`. The character-class
predicates model Rust's `is_lowercase` / `is_uppercase` / `is_ascii_digit` /
`!is_alphanumeric`, with the Unicode classes restricted to ASCII, where the
two sides agree. -/
def check_password_strength (password : List Char) : PasswordStrength :=
  strengthCore password.length
    (password.any Char.isLower)
    (password.any Char.isUpper)
    (password.any (fun c => c.isDigit))
    (password.any (fun c => !(c.isAlpha || c.isDigit)))

/-- `SessionInfo` from `auth/master_password.rs`. -/
structure SessionInfo where
  is_authenticated : Bool
  expires_at : Nat
  last_activity : Nat
deriving DecidableEq

/-- `SessionInfo::default()`: created unauthenticated. -/
def SessionInfo.init : SessionInfo := ⟨false, 0, 0⟩

/-- The mutable state of a `MasterPasswordManager`: the session record and
the stored verification ciphertext (`password_hash_storage`), plus the
per-instance timeout. -/
structure ManagerState where
  session : SessionInfo
  session_timeout_seconds : Nat
  password_hash_storage : Option (List Nat)
deriving DecidableEq

/-- `MasterPasswordManager::new()` state: default session, 30-minute
timeout, no password set. -/
def ManagerState.init : ManagerState := ⟨SessionInfo.init, 30 * 60, none⟩

namespace MasterPasswordManager

/-- The fixed marker payload `b"master_password_validation_data"`. -/
def validationData : List Nat := strBytes "master_password_validation_data"

/-- `MasterPasswordManager::get_session_status`: unauthenticated ↦
`NotAuthenticated`; authenticated with `now > expires_at` ↦ flip the record
to the default (unauthenticated) state and report `Expired`; otherwise
`Authenticated{expires_at}`. -/
def get_session_status (now : Nat) (s : ManagerState) : SessionStatus × ManagerState :=
  if !s.session.is_authenticated then (.NotAuthenticated, s)
  else if s.session.expires_at < now then (.Expired, { s with session := SessionInfo.init })
  else (.Authenticated s.session.expires_at, s)

/-- `MasterPasswordManager::is_authenticated`: true exactly on
`Authenticated` status (inherits the status check's lazy-expiry flip). -/
def is_authenticated (now : Nat) (s : ManagerState) : Bool × ManagerState :=
  match get_session_status now s with
  | (.Authenticated _, s₁) => (true, s₁)
  | (_, s₁) => (false, s₁)

/-- `MasterPasswordManager::extend_session`: fails with `SessionInvalid`
unless authenticated and not past `expires_at`; otherwise resets
`expires_at = now + timeout` and `last_activity = now`. -/
def extend_session (now : Nat) (s : ManagerState) :
    Except MasterPasswordError Nat × ManagerState :=
  if !s.session.is_authenticated || s.session.expires_at < now then
    (.error .SessionInvalid, s)
  else
    let new_expires_at := now + s.session_timeout_seconds
    (.ok new_expires_at, { s with session := ⟨true, new_expires_at, now⟩ })

/-- `MasterPasswordManager::clear_session`. -/
def clear_session (s : ManagerState) : ManagerState :=
  { s with session := SessionInfo.init }

/-- `MasterPasswordManager::verify_password`: `PasswordNotSet` when no
verification ciphertext is stored; decrypt it with the supplied password,
mapping any failure to `InvalidPassword`; reject when the marker payload
does not match; on success start the session
(`expires_at = now + timeout`, `last_activity = now`). -/
def verify_password (A : AeadScheme) (now : Nat) (password : String) (s : ManagerState) :
    Except MasterPasswordError Nat × ManagerState :=
  match s.password_hash_storage with
  | none => (.error .PasswordNotSet, s)
  | some password_hash =>
    match CryptoService.decrypt A password_hash password with
    | .error _ => (.error .InvalidPassword, s)
    | .ok decrypted =>
      if decrypted ≠ validationData then (.error .InvalidPassword, s)
      else
        let expires_at := now + s.session_timeout_seconds
        (.ok expires_at, { s with session := ⟨true, expires_at, now⟩ })

/-- `MasterPasswordManager::set_password`: reject `Weak` passwords;
otherwise store the encryption of the marker payload under the new password
(salt and nonce are the RNG draws of that `encrypt` call) and clear the
session. -/
def set_password (A : AeadScheme) (password : String) (salt nonce : List Nat)
    (s : ManagerState) : Except MasterPasswordError PasswordStrength × ManagerState :=
  let strength := check_password_strength password.toList
  if strength = .Weak then (.error .WeakPassword, s)
  else
    let password_hash := CryptoService.encrypt A validationData password salt nonce
    (.ok strength, clear_session { s with password_hash_storage := some password_hash })

end MasterPasswordManager

/-! ### Password strength (C7) -/

lemma strengthCore_weak_of_gate (l : Nat) (hl hu hd hs : Bool)
    (h : l < 8 ∨ hl = false ∨ hu = false ∨ hd = false) :
    strengthCore l hl hu hd hs = .Weak := by
  unfold strengthCore
  rcases h with h | h | h | h <;> simp [h]

lemma strengthMatch_mono (l₁ l₂ c₁ c₂ : Nat) (hl : l₁ ≤ l₂) (hc : c₁ ≤ c₂)
    (h3 : 3 ≤ c₁) (h4 : c₂ ≤ 4) :
    (strengthMatch l₁ c₁).rank ≤ (strengthMatch l₂ c₂).rank := by
  unfold strengthMatch
  split_ifs <;> simp [PasswordStrength.rank] <;> omega

lemma strengthCore_monotone (l₁ l₂ : Nat) (a₁ b₁ c₁ d₁ a₂ b₂ c₂ d₂ : Bool)
    (hlen : l₁ ≤ l₂) (ha : a₁ = true → a₂ = true) (hb : b₁ = true → b₂ = true)
    (hc : c₁ = true → c₂ = true) (hd : d₁ = true → d₂ = true) :
    (strengthCore l₁ a₁ b₁ c₁ d₁).rank ≤ (strengthCore l₂ a₂ b₂ c₂ d₂).rank := by
  by_cases hgate : l₁ < 8 ∨ a₁ = false ∨ b₁ = false ∨ c₁ = false
  · rw [strengthCore_weak_of_gate _ _ _ _ _ hgate]
    exact Nat.zero_le _
  · push_neg at hgate
    obtain ⟨h8, ha₁, hb₁, hc₁⟩ := hgate
    have ha₁ : a₁ = true := by cases a₁ <;> simp_all
    have hb₁ : b₁ = true := by cases b₁ <;> simp_all
    have hc₁ : c₁ = true := by cases c₁ <;> simp_all
    have ha₂ := ha ha₁
    have hb₂ := hb hb₁
    have hc₂ := hc hc₁
    subst ha₁; subst hb₁; subst hc₁; subst ha₂; subst hb₂; subst hc₂
    have h8' : ¬(l₁ < 8) := by omega
    have h8₂ : ¬(l₂ < 8) := by omega
    rw [strengthCore, strengthCore, if_neg (by simp [h8']), if_neg (by simp [h8₂])]
    cases d₁ <;> cases d₂ <;> simp_all [criteriaCount] <;>
      exact strengthMatch_mono _ _ _ _ hlen (by omega) (by omega) (by omega)

/-- C7: `check_password_strength` classifies `"weak"` and `"12345678"` as
`Weak` and `"Password1"` as `Fair`; every 10-to-11-character password
covering all four character classes is `Strong` and every password of 12 or
more characters covering all four classes is `VeryStrong`; and the tier
computed by the strength core is monotone non-decreasing when the length
increases with the class flags held fixed, and when class flags are added. -/
theorem password_strength_spec :
    check_password_strength "weak".toList = .Weak ∧
    check_password_strength "12345678".toList = .Weak ∧
    check_password_strength "Password1".toList = .Fair ∧
    (∀ pw : List Char, 10 ≤ pw.length → pw.length ≤ 11 →
      pw.any Char.isLower = true → pw.any Char.isUpper = true →
      pw.any (fun c => c.isDigit) = true →
      pw.any (fun c => !(c.isAlpha || c.isDigit)) = true →
      check_password_strength pw = .Strong) ∧
    (∀ pw : List Char, 12 ≤ pw.length →
      pw.any Char.isLower = true → pw.any Char.isUpper = true →
      pw.any (fun c => c.isDigit) = true →
      pw.any (fun c => !(c.isAlpha || c.isDigit)) = true →
      check_password_strength pw = .VeryStrong) ∧
    (∀ l₁ l₂ : Nat, ∀ a b c d : Bool, l₁ ≤ l₂ →
      (strengthCore l₁ a b c d).rank ≤ (strengthCore l₂ a b c d).rank) ∧
    (∀ l : Nat, ∀ a₁ b₁ c₁ d₁ a₂ b₂ c₂ d₂ : Bool,
      (a₁ = true → a₂ = true) → (b₁ = true → b₂ = true) →
      (c₁ = true → c₂ = true) → (d₁ = true → d₂ = true) →
      (strengthCore l a₁ b₁ c₁ d₁).rank ≤ (strengthCore l a₂ b₂ c₂ d₂).rank) := by
  refine ⟨by decide, by decide, by decide, ?_, ?_, ?_, ?_⟩
  · intro pw h10 h11 ha hb hc hd
    unfold check_password_strength
    rw [ha, hb, hc, hd, strengthCore, if_neg (by simp; omega)]
    have : criteriaCount true true true true = 4 := by decide
    rw [this, strengthMatch, if_neg (by omega), if_pos (by omega)]
  · intro pw h12 ha hb hc hd
    unfold check_password_strength
    rw [ha, hb, hc, hd, strengthCore, if_neg (by simp; omega)]
    have : criteriaCount true true true true = 4 := by decide
    rw [this, strengthMatch, if_pos (by omega)]
  · intro l₁ l₂ a b c d hlen
    exact strengthCore_monotone l₁ l₂ a b c d a b c d hlen id id id id
  · intro l a₁ b₁ c₁ d₁ a₂ b₂ c₂ d₂ ha hb hc hd
    exact strengthCore_monotone l l a₁ b₁ c₁ d₁ a₂ b₂ c₂ d₂ le_rfl ha hb hc hd

/-- Witness for C7: concrete 10-character and 12-character passwords
covering all four classes. -/
theorem password_strength_spec_witness :
    check_password_strength "Abcdefg1!x".toList = .Strong ∧
    check_password_strength "Abcdefghij1!".toList = .VeryStrong :=
  ⟨password_strength_spec.2.2.2.1 "Abcdefg1!x".toList
      (by decide) (by decide) (by decide) (by decide) (by decide) (by decide),
    password_strength_spec.2.2.2.2.1 "Abcdefghij1!".toList
      (by decide) (by decide) (by decide) (by decide) (by decide)⟩

/-! ### Session lifecycle (C6, C8, C10) -/

/-- C6: if the session is authenticated and the timeout has elapsed
(`now > expires_at`), the next `get_session_status` call returns `Expired`
and flips the record back to the default unauthenticated state, after which
`is_authenticated` is false at every later query; and `extend_session` on
the expired session merely fails with `SessionInvalid` without flipping the
record — the status check is the mechanism that performs the flip. -/
theorem session_expiry_lazy_detection (now : Nat) (s : ManagerState)
    (hauth : s.session.is_authenticated = true) (hexp : s.session.expires_at < now) :
    MasterPasswordManager.get_session_status now s =
      (.Expired, { s with session := SessionInfo.init }) ∧
    (∀ t : Nat,
      (MasterPasswordManager.is_authenticated t { s with session := SessionInfo.init }).1
        = false) ∧
    MasterPasswordManager.extend_session now s = (.error .SessionInvalid, s) := by
  refine ⟨?_, ?_, ?_⟩
  · simp [MasterPasswordManager.get_session_status, hauth, hexp]
  · intro t
    simp [MasterPasswordManager.is_authenticated, MasterPasswordManager.get_session_status,
      SessionInfo.init]
  · simp [MasterPasswordManager.extend_session, hauth, hexp]

/-- Witness for C6 at a concrete expired session. -/
theorem session_expiry_lazy_detection_witness :
    MasterPasswordManager.get_session_status 11 ⟨⟨true, 10, 0⟩, 1800, none⟩ =
      (.Expired, ⟨SessionInfo.init, 1800, none⟩) ∧
    (MasterPasswordManager.is_authenticated 12 ⟨SessionInfo.init, 1800, none⟩).1 = false := by
  have h := session_expiry_lazy_detection 11 ⟨⟨true, 10, 0⟩, 1800, none⟩ (by decide) (by decide)
  exact ⟨h.1, h.2.1 12⟩

/-- A manager state with a password set (verification ciphertext for
`"Password1!"`) and no session, used to exhibit the C8 counterexample on a
reachable state. -/
def extendCexBase : ManagerState :=
  ⟨SessionInfo.init, 1800,
    some (CryptoService.encrypt toyAead MasterPasswordManager.validationData "Password1!"
      (List.replicate 32 2) (List.replicate 12 3))⟩

/-- C8 counterexample: verifying the master password at time 1000 creates a
session with `expires_at = 2800`; calling `extend_session` at the same
second succeeds and returns `expires_at = 2800` again — not strictly
greater than the previous value, contradicting the claim as stated. -/
theorem extend_session_not_strictly_increasing :
    (MasterPasswordManager.verify_password toyAead 1000 "Password1!" extendCexBase).1
      = .ok 2800 ∧
    (MasterPasswordManager.verify_password toyAead 1000 "Password1!" extendCexBase).2.session
      = ⟨true, 2800, 1000⟩ ∧
    (MasterPasswordManager.extend_session 1000
      (MasterPasswordManager.verify_password toyAead 1000 "Password1!" extendCexBase).2).1
      = .ok 2800 ∧
    ¬ (2800 : Nat) > 2800 := by
  refine ⟨by decide, by decide, by decide, by omega⟩

/-- C8 (amended): on a session that is authenticated and not expired,
`extend_session` succeeds, returning and storing
`expires_at = now + timeout`; this is ≥ the previous `expires_at`, and
strictly greater exactly when the clock has advanced since the expiry was
last set (`last_activity < now`, given the invariant
`expires_at = last_activity + timeout` that `verify_password` and
`extend_session` establish) — it equals the previous value when called at
the same second. On an unauthenticated or expired session it fails with
`SessionInvalid` and leaves the state unchanged. -/
theorem extend_session_correct (now : Nat) (s : ManagerState) :
    (s.session.is_authenticated = true → now ≤ s.session.expires_at →
      MasterPasswordManager.extend_session now s =
        (.ok (now + s.session_timeout_seconds),
          { s with session := ⟨true, now + s.session_timeout_seconds, now⟩ }) ∧
      (s.session.expires_at = s.session.last_activity + s.session_timeout_seconds →
        s.session.last_activity < now →
        s.session.expires_at < now + s.session_timeout_seconds)) ∧
    ((s.session.is_authenticated = false ∨ s.session.expires_at < now) →
      MasterPasswordManager.extend_session now s = (.error .SessionInvalid, s)) := by
  constructor
  · intro hauth hle
    refine ⟨?_, fun hinv hlast => by omega⟩
    simp [MasterPasswordManager.extend_session, hauth, Nat.not_lt.mpr hle]
  · intro hinv
    rcases hinv with h | h <;>
      simp [MasterPasswordManager.extend_session, h]

/-- Witness for C8 (amended): one second after the session was set, the
extension strictly increases `expires_at`; and on an expired session the
call fails leaving the state unchanged. -/
theorem extend_session_correct_witness :
    MasterPasswordManager.extend_session 1001 ⟨⟨true, 2800, 1000⟩, 1800, none⟩ =
      (.ok 2801, ⟨⟨true, 2801, 1001⟩, 1800, none⟩) ∧
    (2800 : Nat) < 2801 ∧
    MasterPasswordManager.extend_session 9999 ⟨⟨true, 2800, 1000⟩, 1800, none⟩ =
      (.error .SessionInvalid, ⟨⟨true, 2800, 1000⟩, 1800, none⟩) := by
  have h := extend_session_correct 1001 (⟨⟨true, 2800, 1000⟩, 1800, none⟩ : ManagerState)
  have h₂ := extend_session_correct 9999 (⟨⟨true, 2800, 1000⟩, 1800, none⟩ : ManagerState)
  exact ⟨(h.1 (by decide) (by decide)).1, by decide, h₂.2 (Or.inr (by decide))⟩

/-- C10: whenever `verify_password` returns an error (`PasswordNotSet`,
`InvalidPassword`, …), the manager state — in particular the session
record — is left completely unchanged: a wrong-password attempt made while
a valid session exists neither deauthenticates it nor changes `expires_at`
or `last_activity`. -/
theorem verify_password_error_preserves_state (A : AeadScheme) (now : Nat) (pw : String)
    (s : ManagerState) (e : MasterPasswordError)
    (h : (MasterPasswordManager.verify_password A now pw s).1 = .error e) :
    (MasterPasswordManager.verify_password A now pw s).2 = s := by
  unfold MasterPasswordManager.verify_password at h ⊢
  rcases hst : s.password_hash_storage with _ | hash
  · simp [hst]
  · simp only [hst] at h ⊢
    rcases hdec : CryptoService.decrypt A hash pw with e₁ | d
    · simp [hdec]
    · simp only [hdec] at h ⊢
      by_cases hval : d = MasterPasswordManager.validationData
      · simp [hval] at h
      · simp [hval]

/-- Witness for C10: a wrong-password attempt against a state with a set
password and a live session leaves the whole state (session included)
unchanged. -/
theorem verify_password_error_preserves_state_witness :
    (MasterPasswordManager.verify_password toyAead 1500 "WrongPass9?"
      { extendCexBase with session := ⟨true, 2800, 1000⟩ }).1 = .error .InvalidPassword ∧
    (MasterPasswordManager.verify_password toyAead 1500 "WrongPass9?"
      { extendCexBase with session := ⟨true, 2800, 1000⟩ }).2 =
      { extendCexBase with session := ⟨true, 2800, 1000⟩ } :=
  ⟨by decide,
    verify_password_error_preserves_state toyAead 1500 "WrongPass9?"
      { extendCexBase with session := ⟨true, 2800, 1000⟩ } .InvalidPassword (by decide)⟩

/-! ## Secure vault (`storage/secure_repository.rs`) -/

/-- `SecureRepositoryError` from `storage/secure_repository.rs`
(message payloads dropped). -/
inductive SecureRepositoryError where
  | AuthenticationError
  | CryptographyError
  | DatabaseError
  | DataFormatError
  | SystemError
deriving DecidableEq

/-- `impl From<MasterPasswordError> for SecureRepositoryError`: every
variant is wrapped into `AuthenticationError(msg)`. -/
def masterPasswordErrorToSecure (_ : MasterPasswordError) : SecureRepositoryError :=
  .AuthenticationError

/-- `impl From<CryptoError> for SecureRepositoryError`: every variant is
wrapped into `CryptographyError(msg)`. -/
def cryptoErrorToSecure (_ : CryptoError) : SecureRepositoryError :=
  .CryptographyError

/-- `BacklogWorkspaceConfig` from `models/mod.rs`
(timestamps kept as plain numbers). -/
structure BacklogWorkspaceConfig where
  id : String
  name : String
  domain : String
  api_key_encrypted : String
  encryption_version : String
  enabled : Bool
  created_at : Nat
  updated_at : Nat
deriving DecidableEq

/-- Abstract model of the external `base64` crate at its interface: an
injective text encoding of byte strings with a partial inverse. The claims
below do not depend on the concrete alphabet. -/
structure Base64Codec where
  encode : List Nat → String
  decode : String → Option (List Nat)

/-- A concrete codec used to evaluate theorems on closed inputs: each byte
is written in decimal followed by a comma. -/
def encodeBytesChars : List Nat → List Char
  | [] => []
  | n :: ns => Nat.toDigits 10 n ++ ',' :: encodeBytesChars ns

def decodeChunk (cs : List Char) : Nat :=
  cs.foldl (fun acc c => acc * 10 + (c.toNat - 48)) 0

def digitCodec : Base64Codec where
  encode bs := ⟨encodeBytesChars bs⟩
  decode s :=
    let parts := s.toList.splitOn ','
    match parts.getLast? with
    | some [] => some (parts.dropLast.map decodeChunk)
    | _ => none

/-- `String::from_utf8` at the model's byte level: the bytes must all be
valid character codes. -/
def bytesToString (bs : List Nat) : Option String :=
  if bs.all (fun b => decide (Nat.isValidChar b)) then some ⟨bs.map Char.ofNat⟩ else none

/-- Modelled from the spec: the storage collaborator `Repository` (with
`save_backlog_workspace_config`, `get_backlog_workspace_config`,
`get_all_backlog_workspace_configs` and `delete_backlog_workspace_config`)
is referenced by `SecureRepository` but absent from the sources — only
per-table repositories exist (`WorkspaceRepository` uses
`INSERT OR REPLACE`, select by id, `DELETE WHERE id`). Spec §6 specifies
the collaborator as a persistent record store with upsert-by-id, get, list
and delete, preserving byte-exact round trips of the stored text. It is
modelled as a list of records keyed by `id`. -/
def Repository.upsert (db : List BacklogWorkspaceConfig) (cfg : BacklogWorkspaceConfig) :
    List BacklogWorkspaceConfig :=
  if db.any (fun c => c.id = cfg.id) then
    db.map (fun c => if c.id = cfg.id then cfg else c)
  else db ++ [cfg]

def Repository.get (db : List BacklogWorkspaceConfig) (workspace_id : String) :
    Option BacklogWorkspaceConfig :=
  db.find? (fun c => c.id = workspace_id)

def Repository.delete (db : List BacklogWorkspaceConfig) (workspace_id : String) :
    List BacklogWorkspaceConfig :=
  db.filter (fun c => c.id ≠ workspace_id)

/-- Work performed by a vault operation besides updating the session
record: calls into the cipher service and into the storage collaborator. -/
inductive VaultEffect where
  | cryptoOp
  | dbRead
  | dbWrite
deriving DecidableEq

/-- The state a `SecureRepository` closes over: the shared
`MasterPasswordManager` and the storage collaborator's contents, plus the
current `encryption_version` (`"v1"`). -/
structure VaultState where
  manager : ManagerState
  db : List BacklogWorkspaceConfig
  encryption_version : String
deriving DecidableEq

namespace SecureRepository

/-- `SecureRepository::verify_authentication`: check
`manager.is_authenticated()` (which itself performs the lazy-expiry flip);
if false, fail with `AuthenticationError`; else extend the session (errors
converted through `From<MasterPasswordError>`); on success return
`SecureString::new("dummy_password")` — the source's placeholder, not the
verified master password. -/
def verify_authentication (now : Nat) (s : ManagerState) :
    Except SecureRepositoryError String × ManagerState :=
  match MasterPasswordManager.is_authenticated now s with
  | (false, s₁) => (.error .AuthenticationError, s₁)
  | (true, s₁) =>
    match MasterPasswordManager.extend_session now s₁ with
    | (.error e, s₂) => (.error (masterPasswordErrorToSecure e), s₂)
    | (.ok _, s₂) => (.ok "dummy_password", s₂)

/-- `SecureRepository::save_backlog_workspace_config`: authenticate,
encrypt the plaintext API key under the password returned by the gate
(salt and nonce are that call's RNG draws), base64-encode the blob, stamp
the current encryption version, and upsert the record. -/
def save_backlog_workspace_config (A : AeadScheme) (B : Base64Codec) (now : Nat)
    (salt nonce : List Nat) (workspace_config : BacklogWorkspaceConfig)
    (api_key_plaintext : String) (vs : VaultState) :
    Except SecureRepositoryError String × VaultState × List VaultEffect :=
  match verify_authentication now vs.manager with
  | (.error e, m₁) => (.error e, { vs with manager := m₁ }, [])
  | (.ok master_password, m₁) =>
    let encrypted_api_key :=
      CryptoService.encrypt A (strBytes api_key_plaintext) master_password salt nonce
    let cfg := { workspace_config with
                  api_key_encrypted := B.encode encrypted_api_key,
                  encryption_version := vs.encryption_version }
    (.ok cfg.id, { vs with manager := m₁, db := Repository.upsert vs.db cfg },
      [.cryptoOp, .dbWrite])

/-- The per-record body shared by `get_backlog_workspace_config` and the
loop of `get_all_backlog_workspace_configs`: base64-decode
(`DataFormatError` on failure), decrypt (`From<CryptoError>` on failure),
then `String::from_utf8` (`DataFormatError` on failure). -/
def processConfig (A : AeadScheme) (B : Base64Codec) (master_password : String)
    (config : BacklogWorkspaceConfig) :
    Except SecureRepositoryError (BacklogWorkspaceConfig × String) :=
  match B.decode config.api_key_encrypted with
  | none => .error .DataFormatError
  | some encrypted_api_key =>
    match CryptoService.decrypt A encrypted_api_key master_password with
    | .error e => .error (cryptoErrorToSecure e)
    | .ok api_key_bytes =>
      match bytesToString api_key_bytes with
      | none => .error .DataFormatError
      | some api_key_plaintext => .ok (config, api_key_plaintext)

/-- Cipher-service work performed while processing one record: one decrypt
call once the base64 decode has succeeded. -/
def configCryptoEffects (B : Base64Codec) (config : BacklogWorkspaceConfig) :
    List VaultEffect :=
  match B.decode config.api_key_encrypted with
  | none => []
  | some _ => [.cryptoOp]

/-- The `for config in configs` loop of `get_all_backlog_workspace_configs`:
record processing with `?`, so the first failing record aborts the whole
listing. -/
def processConfigs (A : AeadScheme) (B : Base64Codec) (master_password : String) :
    List BacklogWorkspaceConfig →
      Except SecureRepositoryError (List (BacklogWorkspaceConfig × String)) × List VaultEffect
  | [] => (.ok [], [])
  | config :: rest =>
    match processConfig A B master_password config with
    | .error e => (.error e, configCryptoEffects B config)
    | .ok p =>
      let res := processConfigs A B master_password rest
      (res.1.map (fun l => p :: l), configCryptoEffects B config ++ res.2)

/-- `SecureRepository::get_backlog_workspace_config`: authenticate, read
the record (missing id is a `DataFormatError`, not an authentication
error), then decode/decrypt/convert it. -/
def get_backlog_workspace_config (A : AeadScheme) (B : Base64Codec) (now : Nat)
    (workspace_id : String) (vs : VaultState) :
    Except SecureRepositoryError (BacklogWorkspaceConfig × String) × VaultState ×
      List VaultEffect :=
  match verify_authentication now vs.manager with
  | (.error e, m₁) => (.error e, { vs with manager := m₁ }, [])
  | (.ok master_password, m₁) =>
    match Repository.get vs.db workspace_id with
    | none => (.error .DataFormatError, { vs with manager := m₁ }, [.dbRead])
    | some config =>
      (processConfig A B master_password config, { vs with manager := m₁ },
        .dbRead :: configCryptoEffects B config)

/-- `SecureRepository::get_all_backlog_workspace_configs`: authenticate,
list all records, then run the processing loop. -/
def get_all_backlog_workspace_configs (A : AeadScheme) (B : Base64Codec) (now : Nat)
    (vs : VaultState) :
    Except SecureRepositoryError (List (BacklogWorkspaceConfig × String)) × VaultState ×
      List VaultEffect :=
  match verify_authentication now vs.manager with
  | (.error e, m₁) => (.error e, { vs with manager := m₁ }, [])
  | (.ok master_password, m₁) =>
    let res := processConfigs A B master_password vs.db
    (res.1, { vs with manager := m₁ }, .dbRead :: res.2)

/-- `SecureRepository::delete_backlog_workspace_config`: authenticate, then
delete through the collaborator (idempotent at the storage level). -/
def delete_backlog_workspace_config (now : Nat) (workspace_id : String) (vs : VaultState) :
    Except SecureRepositoryError Unit × VaultState × List VaultEffect :=
  match verify_authentication now vs.manager with
  | (.error e, m₁) => (.error e, { vs with manager := m₁ }, [])
  | (.ok _, m₁) =>
    (.ok (), { vs with manager := m₁, db := Repository.delete vs.db workspace_id },
      [.dbWrite])

/-- The re-encryption loop of `migrate_encryption_version`: each record
whose version differs is re-encrypted under a fresh salt/nonce draw
(`rands i`) and upserted; matching records are skipped. -/
def migrateSave (A : AeadScheme) (B : Base64Codec)
    (master_password new_version : String) (rands : Nat → List Nat × List Nat) :
    Nat → List (BacklogWorkspaceConfig × String) → List BacklogWorkspaceConfig →
      List BacklogWorkspaceConfig × List VaultEffect
  | _, [], db => (db, [])
  | i, (config, api_key) :: rest, db =>
    if config.encryption_version ≠ new_version then
      let (salt, nonce) := rands i
      let blob := CryptoService.encrypt A (strBytes api_key) master_password salt nonce
      let cfg := { config with
                    api_key_encrypted := B.encode blob,
                    encryption_version := new_version }
      let res := migrateSave A B master_password new_version rands (i + 1) rest
        (Repository.upsert db cfg)
      (res.1, .cryptoOp :: .dbWrite :: res.2)
    else migrateSave A B master_password new_version rands (i + 1) rest db

/-- `SecureRepository::migrate_encryption_version`: authenticate, call
`get_all_backlog_workspace_configs` (which re-authenticates and extends the
session again), then run the re-encryption loop. -/
def migrate_encryption_version (A : AeadScheme) (B : Base64Codec) (now : Nat)
    (rands : Nat → List Nat × List Nat) (new_version : String) (vs : VaultState) :
    Except SecureRepositoryError Unit × VaultState × List VaultEffect :=
  match verify_authentication now vs.manager with
  | (.error e, m₁) => (.error e, { vs with manager := m₁ }, [])
  | (.ok master_password, m₁) =>
    match get_all_backlog_workspace_configs A B now { vs with manager := m₁ } with
    | (.error e, vs₂, effs) => (.error e, vs₂, effs)
    | (.ok configs, vs₂, effs) =>
      let res := migrateSave A B master_password new_version rands 0 configs vs₂.db
      (.ok (), { vs₂ with db := res.1 }, effs ++ res.2)

end SecureRepository

/-! ### The authentication gate (C2) -/

lemma verify_authentication_of_not_authed (now : Nat) (s : ManagerState)
    (h : (MasterPasswordManager.is_authenticated now s).1 = false) :
    SecureRepository.verify_authentication now s =
      (.error .AuthenticationError, (MasterPasswordManager.is_authenticated now s).2) := by
  unfold SecureRepository.verify_authentication
  rcases hia : MasterPasswordManager.is_authenticated now s with ⟨b, s₁⟩
  rw [hia] at h
  simp only at h
  subst h
  simp

lemma is_authenticated_true_elim (now : Nat) (s : ManagerState)
    (h : (MasterPasswordManager.is_authenticated now s).1 = true) :
    s.session.is_authenticated = true ∧ ¬(s.session.expires_at < now) := by
  cases hb : s.session.is_authenticated
  · simp [MasterPasswordManager.is_authenticated,
      MasterPasswordManager.get_session_status, hb] at h
  · by_cases hex : s.session.expires_at < now
    · simp [MasterPasswordManager.is_authenticated,
        MasterPasswordManager.get_session_status, hb, hex] at h
    · exact ⟨rfl, hex⟩

lemma verify_authentication_of_authed (now : Nat) (s : ManagerState)
    (h : (MasterPasswordManager.is_authenticated now s).1 = true) :
    SecureRepository.verify_authentication now s =
      (.ok "dummy_password",
        { s with session := ⟨true, now + s.session_timeout_seconds, now⟩ }) := by
  obtain ⟨hauth, hex⟩ := is_authenticated_true_elim now s h
  have hstat : MasterPasswordManager.is_authenticated now s = (true, s) := by
    simp [MasterPasswordManager.is_authenticated,
      MasterPasswordManager.get_session_status, hauth, hex]
  unfold SecureRepository.verify_authentication
  rw [hstat]
  simp [MasterPasswordManager.extend_session, hauth, hex]

/-- The session record a successful gate leaves behind. -/
def extendedManager (now : Nat) (s : ManagerState) : ManagerState :=
  { s with session := ⟨true, now + s.session_timeout_seconds, now⟩ }

lemma verify_authentication_extended (now : Nat) (s : ManagerState) :
    SecureRepository.verify_authentication now (extendedManager now s) =
      (.ok "dummy_password", extendedManager now s) := by
  have h : (MasterPasswordManager.is_authenticated now (extendedManager now s)).1 = true := by
    simp [MasterPasswordManager.is_authenticated,
      MasterPasswordManager.get_session_status, extendedManager]
  rw [verify_authentication_of_authed now _ h]
  simp [extendedManager]

/-- C2: every public vault operation (save, get, get-all, delete, migrate)
begins with the authentication gate. When `is_authenticated()` is false
(session absent or expired), the operation fails with
`AuthenticationError`, the stored records are untouched, and no
cryptographic or storage work is performed (the only state change is the
lazy-expiry flip inside the status check itself). When the session is
authenticated, the gate extends it (`expires_at = now + timeout`,
`last_activity = now`) before any further work. -/
theorem vault_auth_gate (A : AeadScheme) (B : Base64Codec) (now : Nat)
    (salt nonce : List Nat) (cfg : BacklogWorkspaceConfig) (pt wid nv : String)
    (rands : Nat → List Nat × List Nat) (vs : VaultState) :
    ((MasterPasswordManager.is_authenticated now vs.manager).1 = false →
      (let vsG : VaultState :=
        { vs with manager := (MasterPasswordManager.is_authenticated now vs.manager).2 }
      SecureRepository.save_backlog_workspace_config A B now salt nonce cfg pt vs =
        (.error .AuthenticationError, vsG, []) ∧
      SecureRepository.get_backlog_workspace_config A B now wid vs =
        (.error .AuthenticationError, vsG, []) ∧
      SecureRepository.get_all_backlog_workspace_configs A B now vs =
        (.error .AuthenticationError, vsG, []) ∧
      SecureRepository.delete_backlog_workspace_config now wid vs =
        (.error .AuthenticationError, vsG, []) ∧
      SecureRepository.migrate_encryption_version A B now rands nv vs =
        (.error .AuthenticationError, vsG, []))) ∧
    ((MasterPasswordManager.is_authenticated now vs.manager).1 = true →
      (SecureRepository.save_backlog_workspace_config A B now salt nonce cfg pt
          vs).2.1.manager = extendedManager now vs.manager ∧
      (SecureRepository.get_backlog_workspace_config A B now wid vs).2.1.manager =
        extendedManager now vs.manager ∧
      (SecureRepository.get_all_backlog_workspace_configs A B now vs).2.1.manager =
        extendedManager now vs.manager ∧
      (SecureRepository.delete_backlog_workspace_config now wid vs).2.1.manager =
        extendedManager now vs.manager ∧
      (SecureRepository.migrate_encryption_version A B now rands nv vs).2.1.manager =
        extendedManager now vs.manager) := by
  constructor
  · intro h
    have hv := verify_authentication_of_not_authed now vs.manager h
    refine ⟨?_, ?_, ?_, ?_, ?_⟩ <;>
      simp only [SecureRepository.save_backlog_workspace_config,
        SecureRepository.get_backlog_workspace_config,
        SecureRepository.get_all_backlog_workspace_configs,
        SecureRepository.delete_backlog_workspace_config,
        SecureRepository.migrate_encryption_version, hv]
  · intro h
    have hv := verify_authentication_of_authed now vs.manager h
    have hv' : SecureRepository.verify_authentication now vs.manager =
        (.ok "dummy_password", extendedManager now vs.manager) := hv
    refine ⟨?_, ?_, ?_, ?_, ?_⟩
    · simp only [SecureRepository.save_backlog_workspace_config, hv']
    · simp only [SecureRepository.get_backlog_workspace_config, hv']
      cases Repository.get vs.db wid <;> simp
    · simp only [SecureRepository.get_all_backlog_workspace_configs, hv']
    · simp only [SecureRepository.delete_backlog_workspace_config, hv']
    · simp only [SecureRepository.migrate_encryption_version, hv']
      have hg : SecureRepository.get_all_backlog_workspace_configs A B now
          { vs with manager := extendedManager now vs.manager } =
          (((SecureRepository.processConfigs A B "dummy_password" vs.db).1),
            { vs with manager := extendedManager now vs.manager },
            .dbRead :: (SecureRepository.processConfigs A B "dummy_password" vs.db).2) := by
        simp only [SecureRepository.get_all_backlog_workspace_configs,
          verify_authentication_extended now vs.manager]
      rw [hg]
      cases (SecureRepository.processConfigs A B "dummy_password" vs.db).1 <;> simp

/-- Witness for C2: on an unauthenticated state every operation is refused
with no effects; on an authenticated state the gate extends the session. -/
theorem vault_auth_gate_witness :
    SecureRepository.delete_backlog_workspace_config 5 "w1"
        ⟨ManagerState.init, [], "v1"⟩ =
      (.error .AuthenticationError, ⟨ManagerState.init, [], "v1"⟩, []) ∧
    (SecureRepository.delete_backlog_workspace_config 1000 "w1"
        ⟨⟨⟨true, 2000, 900⟩, 1800, none⟩, [], "v1"⟩).2.1.manager =
      ⟨⟨true, 2800, 1000⟩, 1800, none⟩ := by
  have h₁ := (vault_auth_gate toyAead digitCodec 5 [] [] ⟨"", "", "", "", "", true, 0, 0⟩ "" "w1" ""
    (fun _ => ([], [])) ⟨ManagerState.init, [], "v1"⟩).1 (by decide)
  have h₂ := (vault_auth_gate toyAead digitCodec 1000 [] [] ⟨"", "", "", "", "", true, 0, 0⟩ "" "w1" ""
    (fun _ => ([], [])) ⟨⟨⟨true, 2000, 900⟩, 1800, none⟩, [], "v1"⟩).2 (by decide)
  exact ⟨h₁.2.2.2.1, h₂.2.2.2.1⟩

/-! ### Bulk listing failure semantics (C9) -/

lemma processConfigs_ok_length (A : AeadScheme) (B : Base64Codec) (mp : String)
    (db : List BacklogWorkspaceConfig) :
    ∀ l, (SecureRepository.processConfigs A B mp db).1 = .ok l → l.length = db.length := by
  induction db with
  | nil =>
    intro l h
    simp only [SecureRepository.processConfigs, Except.ok.injEq] at h
    simp [← h]
  | cons c rest ih =>
    intro l h
    simp only [SecureRepository.processConfigs] at h
    cases hp : SecureRepository.processConfig A B mp c with
    | error e => rw [hp] at h; simp at h
    | ok p =>
      rw [hp] at h
      simp only at h
      cases hr : (SecureRepository.processConfigs A B mp rest).1 with
      | error e => rw [hr] at h; simp [Except.map] at h
      | ok l₁ =>
        rw [hr] at h
        simp only [Except.map, Except.ok.injEq] at h
        subst h
        simp [ih l₁ hr]

lemma processConfigs_mem_error (A : AeadScheme) (B : Base64Codec) (mp : String)
    (c : BacklogWorkspaceConfig) (e : SecureRepositoryError)
    (db : List BacklogWorkspaceConfig) (hmem : c ∈ db)
    (he : SecureRepository.processConfig A B mp c = .error e) :
    ∀ l, (SecureRepository.processConfigs A B mp db).1 ≠ .ok l := by
  induction db with
  | nil => cases hmem
  | cons d rest ih =>
    intro l h
    simp only [SecureRepository.processConfigs] at h
    rcases List.mem_cons.mp hmem with rfl | hmem₂
    · rw [he] at h
      simp at h
    · cases hp : SecureRepository.processConfig A B mp d with
      | error e₂ => rw [hp] at h; simp at h
      | ok p =>
        rw [hp] at h
        simp only at h
        cases hr : (SecureRepository.processConfigs A B mp rest).1 with
        | error e₂ => rw [hr] at h; simp [Except.map] at h
        | ok l₁ => exact ih hmem₂ l₁ hr

/-- C9 (amended): the listing is fail-fast, not per-record: under an
authenticated session, `get_all_backlog_workspace_configs` returns a full
list (one entry per stored record) only when every record decodes and
decrypts; if any single record fails, the whole call returns that error
and no records at all — the remaining records are not surfaced. -/
theorem get_all_fail_fast (A : AeadScheme) (B : Base64Codec) (now : Nat) (vs : VaultState)
    (hAuth : (MasterPasswordManager.is_authenticated now vs.manager).1 = true) :
    (∀ l, (SecureRepository.get_all_backlog_workspace_configs A B now vs).1 = .ok l →
      l.length = vs.db.length) ∧
    (∀ c ∈ vs.db, ∀ e, SecureRepository.processConfig A B "dummy_password" c = .error e →
      ∀ l, (SecureRepository.get_all_backlog_workspace_configs A B now vs).1 ≠ .ok l) := by
  have hv := verify_authentication_of_authed now vs.manager hAuth
  have hga : (SecureRepository.get_all_backlog_workspace_configs A B now vs).1 =
      (SecureRepository.processConfigs A B "dummy_password" vs.db).1 := by
    simp only [SecureRepository.get_all_backlog_workspace_configs, hv]
  rw [hga]
  exact ⟨processConfigs_ok_length A B "dummy_password" vs.db,
    fun c hmem e he => processConfigs_mem_error A B "dummy_password" c e vs.db hmem he⟩

/-- An authenticated manager state used for the closed listing evaluations
(no password hash is needed: the gate only inspects the session record). -/
def authedManager : ManagerState := ⟨⟨true, 2000, 900⟩, 1800, none⟩

/-- A stored record whose encrypted text decodes to a 3-byte blob: its
decryption fails with `InvalidDataFormat` (→ `CryptographyError`). -/
def badRecord : BacklogWorkspaceConfig :=
  ⟨"w1", "bad", "ws1.backlog.jp", digitCodec.encode [0, 0, 0], "v1", true, 0, 0⟩

/-- A stored record holding a well-formed encryption of `"api-key-2"` under
the vault's working password. -/
def goodRecord : BacklogWorkspaceConfig :=
  ⟨"w2", "good", "ws2.backlog.jp",
    digitCodec.encode (CryptoService.encrypt toyAead (strBytes "api-key-2") "dummy_password"
      (List.replicate 32 4) (List.replicate 12 5)), "v1", true, 0, 0⟩

/-- Vault state whose store holds one undecryptable and one decryptable
record. -/
def listCexState : VaultState := ⟨authedManager, [badRecord, goodRecord], "v1"⟩

set_option maxRecDepth 100000 in
/-- C9 counterexample: with one corrupt record and one perfectly decryptable
record in the store, the bulk listing returns a `CryptographyError` and no
records — the failure on the first record aborts the listing instead of
being surfaced per-record while the other record is still returned. -/
theorem get_all_single_failure_aborts_listing :
    SecureRepository.processConfig toyAead digitCodec "dummy_password" goodRecord =
      .ok (goodRecord, "api-key-2") ∧
    (SecureRepository.get_all_backlog_workspace_configs toyAead digitCodec 1000
      listCexState).1 = .error .CryptographyError := by
  exact ⟨by decide, by decide⟩

/-- Witness for C9 (amended), on the concrete two-record store: the listing
with a failing record returns no record list. -/
theorem get_all_fail_fast_witness :
    (SecureRepository.get_all_backlog_workspace_configs toyAead digitCodec 1000
      listCexState).1 ≠ .ok [] := by
  have h := get_all_fail_fast toyAead digitCodec 1000 listCexState (by decide)
  exact h.2 badRecord (by decide) .CryptographyError (by decide) []

/-! ### The placeholder master password (C3) -/

/-- State after `set_password("Password1!")` from the initial state. -/
def c3Setup : ManagerState :=
  (MasterPasswordManager.set_password toyAead "Password1!" (List.replicate 32 6)
    (List.replicate 12 7) ManagerState.init).2

/-- State after additionally verifying `"Password1!"` at time 1000: the
session is authenticated with this master password. -/
def c3Authed : ManagerState :=
  (MasterPasswordManager.verify_password toyAead 1000 "Password1!" c3Setup).2

def c3Record : BacklogWorkspaceConfig := ⟨"w1", "ws", "d.backlog.jp", "", "", true, 0, 0⟩

/-- Vault state after saving `c3Record` with secret `"secret-api-key"`
under the authenticated session. -/
def c3SavedState : VaultState :=
  (SecureRepository.save_backlog_workspace_config toyAead digitCodec 1000
    (List.replicate 32 8) (List.replicate 12 9) c3Record "secret-api-key"
    ⟨c3Authed, [], "v1"⟩).2.1

/-- The decoded blob stored for `"w1"` after the save. -/
def c3StoredBlob : List Nat :=
  (digitCodec.decode ((Repository.get c3SavedState.db "w1").getD c3Record).api_key_encrypted).getD []

/-- C3 (code bug): the session was authenticated by verifying the master
password `"Password1!"`, but `verify_authentication` hands the vault the
placeholder `"dummy_password"`, so `save_backlog_workspace_config` encrypts
the secret under the placeholder: the stored blob decrypts under
`"dummy_password"` and fails to decrypt under the verified master password,
contradicting the claim that the blob is encrypted under the session's
master password. -/
theorem save_encrypts_under_placeholder_password :
    (MasterPasswordManager.verify_password toyAead 1000 "Password1!" c3Setup).1 = .ok 2800 ∧
    (SecureRepository.verify_authentication 1000 c3Authed).1 = .ok "dummy_password" ∧
    CryptoService.decrypt toyAead c3StoredBlob "dummy_password" =
      .ok (strBytes "secret-api-key") ∧
    CryptoService.decrypt toyAead c3StoredBlob "Password1!" = .error .DecryptionFailed := by
  exact ⟨by decide, by decide, by decide, by decide⟩

end ProjectLens
